import Mathlib

set_option linter.unusedVariables false

/- Formal model of the conversational turn pipeline of the voice-clone chat
   backend (src/backend/routes/conversations.js).  JavaScript strings are
   modelled as Lean strings, JS objects as structures with Option fields,
   provider calls as oracle outcomes supplied through an environment record,
   and the two persistent stores (conversation records, audio blobs) as
   explicit state threaded through the handlers. -/

/- ===== Part A: string and list utilities mirroring the JS primitives ===== -/

/- The ASCII part of the character class of the JS regex escape for
   whitespace, also the class trimmed by String.prototype.trim. -/
def jsWs (c : Char) : Bool :=
  c == ' ' || c == '\t' || c == '\n' || c == '\r' || c == '\x0b' || c == '\x0c'

/- Mirrors String.prototype.trim. -/
def jsTrim (s : String) : String :=
  String.mk (((s.toList.dropWhile jsWs).reverse.dropWhile jsWs).reverse)

/- Mirrors String.prototype.toLowerCase on the ASCII range. -/
def jsToLower (s : String) : String := String.mk (s.toList.map Char.toLower)

def startsWithCL : List Char → List Char → Bool
  | [], _ => true
  | _ :: _, [] => false
  | a :: la, b :: lb => a == b && startsWithCL la lb

def occursIn : List Char → List Char → Bool
  | needle, [] => needle == ([] : List Char)
  | needle, c :: rest => startsWithCL needle (c :: rest) || occursIn needle rest

/- Mirrors haystack.includes(needle) of JS strings. -/
def jsIncludes (hay needle : String) : Bool := occursIn needle.toList hay.toList

/- Mirrors String.prototype.split with a single-character separator:
   keeps empty fragments, always returns at least one fragment. -/
def splitChar (sep : Char) : List Char → List (List Char)
  | [] => [[]]
  | c :: cs =>
    if c == sep then [] :: splitChar sep cs
    else
      match splitChar sep cs with
      | l :: ls => (c :: l) :: ls
      | [] => [[c]]

/- Mirrors Array.prototype.join. -/
def joinWith (sep : String) : List String → String
  | [] => ""
  | [x] => x
  | x :: y :: xs => x ++ sep ++ joinWith sep (y :: xs)

/- First line of a character sequence, and the rest after the first
   newline when one exists. -/
def splitFirstLine : List Char → List Char × Option (List Char)
  | [] => ([], none)
  | c :: cs =>
    if c == '\n' then ([], some cs)
    else
      let r := splitFirstLine cs
      (c :: r.1, r.2)

/- Strips a literal from the front, None when it does not occur there. -/
def stripLit : List Char → List Char → Option (List Char)
  | [], cs => some cs
  | _ :: _, [] => none
  | l :: ls, c :: cs => if l == c then stripLit ls cs else none

def nth {α : Type} : List α → Nat → Option α
  | [], _ => none
  | a :: _, 0 => some a
  | _ :: l, n + 1 => nth l n

/- Mirrors Array.prototype.splice(i, 1). -/
def removeAt {α : Type} : List α → Nat → List α
  | [], _ => []
  | _ :: l, 0 => l
  | a :: l, n + 1 => a :: removeAt l n

def firstHit {α : Type} (p : α → Bool) : List α → Option Nat
  | [] => none
  | a :: l => if p a then some 0 else (firstHit p l).map (· + 1)

/- Largest k below n satisfying p, as chosen by a greedy regex quantifier. -/
def lastSat (n : Nat) (p : Nat → Bool) : Option Nat :=
  ((List.range n).filter p).getLast?

/- ===== Part B: a model of JSON.parse, as invoked on one-line fragments ===== -/

inductive JVal where
  | jnull : JVal
  | jbool : Bool → JVal
  | jnum : JVal
  | jstr : String → JVal
  | jarr : List JVal → JVal
  | jobj : List (String × JVal) → JVal

def jsonWsCh (c : Char) : Bool := c == ' ' || c == '\t' || c == '\n' || c == '\r'

def skipJsonWs (cs : List Char) : List Char := cs.dropWhile jsonWsCh

def hexVal (c : Char) : Option Nat :=
  let n := c.toNat
  if 48 ≤ n && n ≤ 57 then some (n - 48)
  else if 97 ≤ n && n ≤ 102 then some (n - 97 + 10)
  else if 65 ≤ n && n ≤ 70 then some (n - 65 + 10)
  else none

def isDigitCh (c : Char) : Bool := 48 ≤ c.toNat && c.toNat ≤ 57

def parseIntDigits : List Char → Option (List Char)
  | [] => none
  | c :: rest =>
    if c == '0' then some rest
    else if isDigitCh c then some (rest.dropWhile isDigitCh)
    else none

def parseFrac (cs : List Char) : Option (List Char) :=
  match cs with
  | '.' :: rest =>
    if (rest.takeWhile isDigitCh) == ([] : List Char) then none
    else some (rest.dropWhile isDigitCh)
  | _ => some cs

def parseExpPart (cs : List Char) : Option (List Char) :=
  match cs with
  | [] => some []
  | c :: rest =>
    if c == 'e' || c == 'E' then
      let rest2 := match rest with
        | s :: r2 => if s == '+' || s == '-' then r2 else rest
        | [] => rest
      if (rest2.takeWhile isDigitCh) == ([] : List Char) then none
      else some (rest2.dropWhile isDigitCh)
    else some (c :: rest)

def parseNum (cs : List Char) : Option (JVal × List Char) :=
  let cs1 := match cs with
    | '-' :: r => r
    | _ => cs
  match parseIntDigits cs1 with
  | none => none
  | some r1 =>
    match parseFrac r1 with
    | none => none
    | some r2 =>
      match parseExpPart r2 with
      | none => none
      | some r3 => some (JVal.jnum, r3)

def parseStrBody : Nat → List Char → Option (List Char × List Char)
  | 0, _ => none
  | _ + 1, [] => none
  | fuel + 1, c :: cs =>
    if c == '"' then some ([], cs)
    else if c == '\\' then
      match cs with
      | [] => none
      | e :: cs2 =>
        if e == '"' then (parseStrBody fuel cs2).map (fun r => ('"' :: r.1, r.2))
        else if e == '\\' then (parseStrBody fuel cs2).map (fun r => ('\\' :: r.1, r.2))
        else if e == '/' then (parseStrBody fuel cs2).map (fun r => ('/' :: r.1, r.2))
        else if e == 'b' then (parseStrBody fuel cs2).map (fun r => ('\x08' :: r.1, r.2))
        else if e == 'f' then (parseStrBody fuel cs2).map (fun r => ('\x0c' :: r.1, r.2))
        else if e == 'n' then (parseStrBody fuel cs2).map (fun r => ('\n' :: r.1, r.2))
        else if e == 'r' then (parseStrBody fuel cs2).map (fun r => ('\r' :: r.1, r.2))
        else if e == 't' then (parseStrBody fuel cs2).map (fun r => ('\t' :: r.1, r.2))
        else if e == 'u' then
          match cs2 with
          | h1 :: h2 :: h3 :: h4 :: cs3 =>
            match hexVal h1, hexVal h2, hexVal h3, hexVal h4 with
            | some a, some b, some c3, some d =>
              (parseStrBody fuel cs3).map
                (fun r => (Char.ofNat (((a * 16 + b) * 16 + c3) * 16 + d) :: r.1, r.2))
            | _, _, _, _ => none
          | _ => none
        else none
    else if c.toNat < 32 then none
    else (parseStrBody fuel cs).map (fun r => (c :: r.1, r.2))

mutual

def parseJVal : Nat → List Char → Option (JVal × List Char)
  | 0, _ => none
  | fuel + 1, cs =>
    match cs with
    | 'n' :: 'u' :: 'l' :: 'l' :: r => some (JVal.jnull, r)
    | 't' :: 'r' :: 'u' :: 'e' :: r => some (JVal.jbool true, r)
    | 'f' :: 'a' :: 'l' :: 's' :: 'e' :: r => some (JVal.jbool false, r)
    | '"' :: r => (parseStrBody fuel r).map (fun p => (JVal.jstr (String.mk p.1), p.2))
    | '[' :: r =>
      (match skipJsonWs r with
       | ']' :: r2 => some (JVal.jarr [], r2)
       | r1 => (parseElems fuel r1).map (fun p => (JVal.jarr p.1, p.2)))
    | '{' :: r =>
      (match skipJsonWs r with
       | '}' :: r2 => some (JVal.jobj [], r2)
       | r1 => (parseMembers fuel r1).map (fun p => (JVal.jobj p.1, p.2)))
    | _ => parseNum cs

def parseElems : Nat → List Char → Option (List JVal × List Char)
  | 0, _ => none
  | fuel + 1, cs =>
    match parseJVal fuel cs with
    | none => none
    | some (v, r) =>
      match skipJsonWs r with
      | ',' :: r2 => (parseElems fuel (skipJsonWs r2)).map (fun p => (v :: p.1, p.2))
      | ']' :: r2 => some ([v], r2)
      | _ => none

def parseMembers : Nat → List Char → Option (List (String × JVal) × List Char)
  | 0, _ => none
  | fuel + 1, cs =>
    match cs with
    | '"' :: r =>
      (match parseStrBody fuel r with
       | none => none
       | some (k, r1) =>
         match skipJsonWs r1 with
         | ':' :: r2 =>
           (match parseJVal fuel (skipJsonWs r2) with
            | none => none
            | some (v, r3) =>
              match skipJsonWs r3 with
              | ',' :: r4 =>
                (parseMembers fuel (skipJsonWs r4)).map
                  (fun p => ((String.mk k, v) :: p.1, p.2))
              | '}' :: r4 => some ([(String.mk k, v)], r4)
              | _ => none)
         | _ => none)
    | _ => none

end

/- Model of JSON.parse over a whole string: surrounding whitespace is
   allowed, the full input must be consumed.  The fuel is generous enough
   for every input, as each recursive step consumes at least one character. -/
def jsonParse (s : String) : Option JVal :=
  match parseJVal (2 * s.toList.length + 2) (skipJsonWs s.toList) with
  | some (v, rest) => if skipJsonWs rest == ([] : List Char) then some v else none
  | none => none

/- Property access on a parsed JS object: with duplicate keys the last
   assignment wins, as in JS object literals produced by JSON.parse. -/
def jobjGet (fields : List (String × JVal)) (k : String) : Option JVal :=
  ((fields.filter (fun p => p.1 == k)).getLast?).map (fun p => p.2)

/- Mirrors the acceptance test applied to each parsed fragment:
   JSON.parse succeeds, and the switchVoice property is a non-empty string. -/
def directiveOf (frag : String) : Option String :=
  match jsonParse frag with
  | some (JVal.jobj fields) =>
    (match jobjGet fields "switchVoice" with
     | some (JVal.jstr s) => if s == "" then none else some s
     | _ => none)
  | _ => none

/- ===== Part C: extractSwitchVoiceSignal ===== -/

structure Signal where
  switchVoice : String
  replyText : String
deriving DecidableEq

/- After the closing brace, the fenced regex requires a whitespace run ending
   in a newline followed immediately by the closing fence; the characters
   after that fence are returned. -/
def closeFenceAfter (t : List Char) : Option (List Char) :=
  let w := t.takeWhile jsWs
  let r := t.dropWhile jsWs
  if w.getLast? == some '\n' then stripLit "```".toList r else none

/- Structural match of the first regex, anchored at the start of the text:
   an opening fence, an optional json tag, whitespace ending in a newline, a
   single-line brace group chosen greedily, whitespace ending in a newline,
   and the closing fence.  Returns the brace group and the characters after
   the closing fence (the trailing whitespace the regex would also consume is
   immaterial, because the caller trims the remainder). -/
def fencedMatch (cs : List Char) : Option (String × List Char) :=
  match stripLit "```".toList cs with
  | none => none
  | some r0 =>
    let r1 := match stripLit "json".toList r0 with
      | some r => r
      | none => r0
    let w := r1.takeWhile jsWs
    let r2 := r1.dropWhile jsWs
    if w.getLast? == some '\n' then
      match r2 with
      | '{' :: _ =>
        let lr := splitFirstLine r2
        let tailOf : Nat → List Char := fun k =>
          (lr.1.drop (k + 1)) ++ (match lr.2 with
            | some r => '\n' :: r
            | none => [])
        (match lastSat lr.1.length
            (fun k => (nth lr.1 k == some '}') && (closeFenceAfter (tailOf k)).isSome) with
         | some k =>
           (match closeFenceAfter (tailOf k) with
            | some after => some (String.mk (lr.1.take (k + 1)), after)
            | none => none)
         | none => none)
      | _ => none
    else none

/- Structural match of the second regex, anchored at the start of the text: a
   brace group on the first line, from the leading opening brace to the last
   closing brace of that line (greedy), with nothing else required. -/
def bareFirstLineMatch (cs : List Char) : Option (String × List Char) :=
  match cs with
  | '{' :: _ =>
    let lr := splitFirstLine cs
    (match lastSat lr.1.length (fun k => nth lr.1 k == some '}') with
     | some q => some (String.mk (lr.1.take (q + 1)),
         (lr.1.drop (q + 1)) ++ (match lr.2 with
           | some r => '\n' :: r
           | none => []))
     | none => none)
  | _ => none

/- Leftmost-greedy match of an unanchored brace group inside one line: from
   the first opening brace that has a closing brace after it, to the last
   closing brace of the line. -/
def scanFrag (line : List Char) : Option String :=
  match firstHit (fun c => c == '{') line, lastSat line.length (fun k => nth line k == some '}') with
  | some p, some q => if p < q then some (String.mk ((line.drop p).take (q + 1 - p))) else none
  | _, _ => none

/- The third strategy of the source: walk the lines, and on the first line
   whose brace group parses to a directive, remove that whole line and join
   the remaining lines back together.  The accumulator carries the already
   scanned lines in reverse. -/
def scanLoop : List (List Char) → List (List Char) → Option Signal
  | _, [] => none
  | acc, l :: ls =>
    match scanFrag l with
    | some frag =>
      (match directiveOf frag with
       | some nm =>
         some { switchVoice := nm,
                replyText := jsTrim (joinWith "\n" ((acc.reverse ++ ls).map String.mk)) }
       | none => scanLoop (l :: acc) ls)
    | none => scanLoop (l :: acc) ls

def extractScan (cs : List Char) : Option Signal := scanLoop [] (splitChar '\n' cs)

def extractAfterFenced (cs : List Char) : Option Signal :=
  match bareFirstLineMatch cs with
  | some fm =>
    (match directiveOf fm.1 with
     | some nm => some { switchVoice := nm, replyText := jsTrim (String.mk fm.2) }
     | none => extractScan cs)
  | none => extractScan cs

/- Mirrors extractSwitchVoiceSignal of src/backend/routes/conversations.js:
   the three candidate locations are tried in order, each one falling through
   to the next when its regex does not match or its fragment does not parse
   to a directive; on success the consumed match is stripped (priorities 1
   and 2) or the whole matched line is removed (priority 3), and the
   remainder is trimmed. -/
def extractSwitchVoiceSignal (text : String) : Option Signal :=
  if text == "" then none
  else
    let cs := text.toList
    match fencedMatch cs with
    | some fm =>
      (match directiveOf fm.1 with
       | some nm => some { switchVoice := nm, replyText := jsTrim (String.mk fm.2) }
       | none => extractAfterFenced cs)
    | none => extractAfterFenced cs

/- ===== Part D: data model, environment, and the route handlers ===== -/

structure Voice where
  id : String
  name : String
  systemPrompt : String
  elevenLabsVoiceId : String
deriving DecidableEq

/- One entry of a conversation record.  The JS objects are heterogeneous;
   fields a given entry kind does not carry are modelled as none.  The JS
   field named type is rendered msgType. -/
structure Message where
  id : String
  turnId : Option String := none
  role : String
  content : Option String := none
  audioUrl : Option String := none
  msgType : Option String := none
  subtype : Option String := none
  fromVoiceId : Option String := none
  fromVoiceName : Option String := none
  toVoiceId : Option String := none
  toVoiceName : Option String := none
  timestamp : Nat
deriving DecidableEq

structure Conversation where
  id : String
  voiceId : String
  title : String
  createdAt : Nat
  updatedAt : Nat
  messages : List Message
deriving DecidableEq

/- The persistent state: the conversation record store and the audio blob
   store, a blob being addressed by conversation id and file name. -/
structure St where
  convs : List Conversation
  blobs : List (String × String)
deriving DecidableEq

/- Replace-on-write save of a conversation record. -/
def saveConvSt (st : St) (c : Conversation) : St :=
  if st.convs.any (fun x => x.id == c.id) then
    { st with convs := st.convs.map (fun x => if x.id == c.id then c else x) }
  else
    { st with convs := st.convs ++ [c] }

/- A JS error value: optional http status and a message. -/
structure Err where
  status : Option Nat := none
  msg : String
deriving DecidableEq

/- Mirrors the expression error.status or-else 500 (a missing or zero
   status is falsy in JS). -/
def jsErrStatus (e : Err) : Nat :=
  match e.status with
  | some s => if s = 0 then 500 else s
  | none => 500

/- The environment of one turn execution: the voice registry as read from
   the store, the outcome each provider call would have if performed, the
   outcome of the storage writes, the clock value and the id-generator seed. -/
structure Env where
  voices : List Voice
  transcribeResult : Except Err String
  chatResult : Except Err (Option String)
  synthResult : Except Err Nat
  uploadResult : Except Err Unit
  saveResult : Except Err Unit
  deleteResult : Except Err Unit
  now : Nat
  uuidSeed : Nat

/- Generated ids, one per counter value. -/
def uuid (n : Nat) : String := "uuid-" ++ toString n

/- A turn request: the caller supplied turn id (the empty string models a
   missing id, which is falsy in JS), an optional audio payload and an
   optional pre-transcribed text. -/
structure TurnReq where
  turnId : String
  file : Option Nat := none
  transcribedText : Option String := none
deriving DecidableEq

/- True when the supplied pre-transcribed text is absent or blank. -/
def blankText : Option String → Bool
  | none => true
  | some t => jsTrim t == ""

/- Which providers a run invoked, and with which synthesis voice handle. -/
structure Calls where
  transcribe : Bool := false
  chat : Bool := false
  synth : Bool := false
  synthVoice : Option String := none
deriving DecidableEq

/- The response of the turn endpoint. -/
inductive TurnOut where
  | ok (userMessage aiMessage voiceSwitchEvent : Option Message)
  | err (status : Nat) (msg : String)
deriving DecidableEq

def VOICE_SWITCH_META : String :=
  "If the user asks to switch to a different voice or persona, you MUST output the following JSON on its own line BEFORE your reply — no preamble, no explanation before it:\n\x7b\"switchVoice\":\"<exact voice name>\"\x7d\nThen continue your reply as the new persona on the next line.\nExample:\n\x7b\"switchVoice\":\"Didi\"\x7d\nHello! I am Didi, great to meet you.\nIf no voice switch is requested, respond normally with no JSON prefix whatsoever."

structure ChatMsg where
  role : String
  content : String
deriving DecidableEq

/- Mirrors the llmMessages assembly: persona prompt plus the switch meta
   instruction, the prior user and assistant entries in order, and the new
   user utterance. -/
def assembleContext (voice : Voice) (msgs : List Message) (userText : String) : List ChatMsg :=
  { role := "system", content := voice.systemPrompt ++ "\n\n" ++ VOICE_SWITCH_META } ::
    ((msgs.filter (fun m => m.role == "user" || m.role == "assistant")).map
      (fun m => { role := m.role, content := m.content.getD "" }) ++
     [{ role := "user", content := userText }])

/- Mirrors: const trimmedAiText = aiText?.trim() or-else "No response". -/
def normalizeAiText : Option String → String
  | none => "No response"
  | some t => if jsTrim t == "" then "No response" else jsTrim t

/- The fuzzy registry match of the switch branch: personas whose display
   name contains the candidate case-insensitively, or are contained in it. -/
def voiceMatches (voices : List Voice) (cand : String) : List Voice :=
  voices.filter (fun v =>
    jsIncludes (jsToLower v.name) (jsToLower cand) || jsIncludes (jsToLower cand) (jsToLower v.name))

/- The signal resolution branch of the turn route: from the optional parsed
   signal, produce the reply text, the synthesis voice handle, and the
   pending switch target if any.  The candidate name is first normalized by
   trimming whitespace, then matched; zero matches, two or more matches and
   a match equal to the active persona replace the reply text. -/
def resolveSignal (voices : List Voice) (convVoiceId : String) (voice : Voice)
    (trimmedAiText : String) (sig : Option Signal) : String × String × Option Voice :=
  match sig with
  | none => (trimmedAiText, voice.elevenLabsVoiceId, none)
  | some s =>
    let normalized := jsTrim s.switchVoice
    match voiceMatches voices normalized with
    | [] =>
      ("I couldn\x27t find a voice named \"" ++ normalized ++ "\".",
       voice.elevenLabsVoiceId, none)
    | [m] =>
      if m.id == convVoiceId then
        ("I\x27m already speaking as " ++ m.name ++ ".", voice.elevenLabsVoiceId, none)
      else
        ((if s.replyText == "" then "No response" else s.replyText),
         m.elevenLabsVoiceId, some m)
    | ms =>
      ("Did you mean " ++ joinWith " or " (ms.map (fun v => v.name)) ++ "?",
       voice.elevenLabsVoiceId, none)

/- Mirrors the title derivation: first six fragments of a split on single
   spaces, rejoined with single spaces, plus the ellipsis character. -/
def deriveTitle (userText : String) : String :=
  joinWith " " (((splitChar ' ' userText.toList).map String.mk).take 6) ++ "…"

/- The generated blob file name of a turn, built from the first generated
   id of the run. -/
def blobNameOf (env : Env) : String := uuid env.uuidSeed ++ ".mp3"

/- The user entry of a turn. -/
def mkUserMessage (env : Env) (req : TurnReq) (userText : String) : Message :=
  { id := uuid (env.uuidSeed + 1), turnId := some req.turnId, role := "user",
    content := some userText, timestamp := env.now }

/- The assistant entry of a turn, referencing the stored audio blob. -/
def mkAiMessage (env : Env) (convId : String) (req : TurnReq) (replyText : String) : Message :=
  { id := uuid env.uuidSeed, turnId := some req.turnId, role := "assistant",
    content := some replyText,
    audioUrl := some ("/api/audio/" ++ convId ++ "/" ++ blobNameOf env),
    timestamp := env.now }

/- The switch event appended on a resolved persona switch: the source is the
   active voice of the record before the mutation, the target the matched
   persona. -/
def mkSwitchEvent (env : Env) (req : TurnReq) (conv : Conversation) (voice : Voice)
    (mv : Voice) : Message :=
  { id := uuid (env.uuidSeed + 2), turnId := some req.turnId, role := "system",
    msgType := some "voiceSwitch", subtype := some "switch",
    fromVoiceId := some conv.voiceId, fromVoiceName := some voice.name,
    toVoiceId := some mv.id, toVoiceName := some mv.name, timestamp := env.now }

/- The title update applied just before the save: a record still carrying
   the placeholder title adopts the derived title. -/
def applyTitle (c : Conversation) (userText : String) : Conversation :=
  if c.title == "New Conversation" then { c with title := deriveTitle userText } else c

/- Everything after a successful audio upload: the blob is recorded, the
   entries are built and appended (user, assistant, then the switch event if
   one is pending), the timestamp is refreshed, the placeholder title is
   replaced, and the record is saved.  On a save failure the stored blob is
   deleted again, a failure of that deletion leaving the blob in place, and
   the original error is reported either way. -/
def persistTurn (env : Env) (convId : String) (req : TurnReq) (st : St)
    (conv : Conversation) (voice : Voice) (userText replyText tts : String)
    (pendingSwitch : Option Voice) (tc : Bool) : St × TurnOut × Calls :=
  let blobName := blobNameOf env
  let st1 : St := { st with blobs := st.blobs ++ [(convId, blobName)] }
  let userMessage := mkUserMessage env req userText
  let aiMessage := mkAiMessage env convId req replyText
  let withSwitch : Conversation × Option Message :=
    match pendingSwitch with
    | some mv =>
      let vse := mkSwitchEvent env req conv voice mv
      ({ conv with
          voiceId := mv.id,
          messages := conv.messages ++ [userMessage, aiMessage, vse] }, some vse)
    | none =>
      ({ conv with messages := conv.messages ++ [userMessage, aiMessage] }, none)
  let conv3 := applyTitle { withSwitch.1 with updatedAt := env.now } userText
  let calls : Calls := { transcribe := tc, chat := true, synth := true, synthVoice := some tts }
  match env.saveResult with
  | Except.ok _ =>
    (saveConvSt st1 conv3, TurnOut.ok (some userMessage) (some aiMessage) withSwitch.2, calls)
  | Except.error e =>
    (match env.deleteResult with
     | Except.ok _ =>
       ({ st1 with blobs := st1.blobs.filter (fun b => !(b == (convId, blobName))) },
        TurnOut.err (jsErrStatus e) e.msg, calls)
     | Except.error _ =>
       (st1, TurnOut.err (jsErrStatus e) e.msg, calls))

/- The user utterance: the trimmed pre-transcribed text when one is present
   and non-blank, otherwise the outcome of the transcription provider call;
   the boolean records whether that call was made. -/
def getUserText (env : Env) (req : TurnReq) : Except Err String × Bool :=
  match req.transcribedText with
  | some t => if jsTrim t == "" then (env.transcribeResult, true) else (Except.ok (jsTrim t), false)
  | none => (env.transcribeResult, true)

/- The pipeline body of the turn route, entered after validation and the
   idempotency check: resolve the voice, obtain the utterance, call the
   reasoning provider, resolve the switch signal, synthesize, upload, and
   persist, with the error of the first failing step reported. -/
def runPipeline (env : Env) (convId : String) (req : TurnReq) (st : St)
    (conv : Conversation) : St × TurnOut × Calls :=
  match env.voices.find? (fun v => v.id == conv.voiceId) with
  | none => (st, TurnOut.err 404 "Voice not found", {})
  | some voice =>
    match getUserText env req with
    | (Except.error e, tc) => (st, TurnOut.err (jsErrStatus e) e.msg, { transcribe := tc })
    | (Except.ok userText, tc) =>
      let _ctx := assembleContext voice conv.messages userText
      match env.chatResult with
      | Except.error e =>
        (st, TurnOut.err (jsErrStatus e) e.msg, { transcribe := tc, chat := true })
      | Except.ok aiText =>
        let trimmedAiText := normalizeAiText aiText
        let rs := resolveSignal env.voices conv.voiceId voice trimmedAiText
          (extractSwitchVoiceSignal trimmedAiText)
        match env.synthResult with
        | Except.error e =>
          (st, TurnOut.err (jsErrStatus e) e.msg,
           { transcribe := tc, chat := true, synth := true, synthVoice := some rs.2.1 })
        | Except.ok _ =>
          match env.uploadResult with
          | Except.error e =>
            (st, TurnOut.err (jsErrStatus e) e.msg,
             { transcribe := tc, chat := true, synth := true, synthVoice := some rs.2.1 })
          | Except.ok _ =>
            persistTurn env convId req st conv voice userText rs.1 rs.2.1 rs.2.2 tc

/- The turn route handler: validation, record load, idempotency check, and
   the pipeline. -/
def runTurn (env : Env) (convId : String) (req : TurnReq) (st : St) :
    St × TurnOut × Calls :=
  if req.turnId = "" then
    (st, TurnOut.err 400 "turnId is required", {})
  else if req.file = none ∧ blankText req.transcribedText = true then
    (st, TurnOut.err 400 "audio file or transcribedText is required", {})
  else
    match st.convs.find? (fun c => c.id == convId) with
    | none => (st, TurnOut.err 404 ("Conversation not found: " ++ convId), {})
    | some conv =>
      let existing := conv.messages.filter (fun m => m.turnId == some req.turnId)
      if 0 < existing.length then
        (st,
         TurnOut.ok
           (existing.find? (fun m => m.role == "user"))
           (existing.find? (fun m => m.role == "assistant"))
           (existing.find? (fun m =>
             m.role == "system" && m.msgType == some "voiceSwitch" && m.turnId == some req.turnId)),
         {})
      else
        runPipeline env convId req st conv

/- The response of the single-conversation read route. -/
inductive GetOut where
  | ok (conv : Conversation)
  | err (status : Nat) (msg : String)
deriving DecidableEq

/- The recovery event appended by the read route when the active voice of a
   record no longer exists and the registry is non-empty: no turn id, the
   recovery subtype, the stale voice id as the source (its name unknown), and
   the first registered voice as the target. -/
def mkRecoveryEvent (env : Env) (conv : Conversation) (v0 : Voice) : Message :=
  { id := uuid env.uuidSeed, turnId := none, role := "system",
    msgType := some "voiceSwitch", subtype := some "recovery",
    fromVoiceId := some conv.voiceId, fromVoiceName := some "Unknown",
    toVoiceId := some v0.id, toVoiceName := some v0.name, timestamp := env.now }

/- The read route: when the active voice of the record no longer exists in a
   non-empty registry, the first registered voice is substituted, a recovery
   event is appended and the record is saved; a record whose voice exists,
   and a record read under an empty registry, are returned unchanged. -/
def getConversationRoute (env : Env) (convId : String) (st : St) : St × GetOut :=
  match st.convs.find? (fun c => c.id == convId) with
  | none => (st, GetOut.err 404 ("Conversation not found: " ++ convId))
  | some conv =>
    match env.voices.find? (fun v => v.id == conv.voiceId) with
    | some _ => (st, GetOut.ok conv)
    | none =>
      match env.voices with
      | [] => (st, GetOut.ok conv)
      | v0 :: _ =>
        let recoveryEvent := mkRecoveryEvent env conv v0
        let conv1 := { conv with
          voiceId := v0.id,
          messages := conv.messages ++ [recoveryEvent],
          updatedAt := env.now }
        match env.saveResult with
        | Except.ok _ => (saveConvSt st conv1, GetOut.ok conv1)
        | Except.error e => (st, GetOut.err (jsErrStatus e) e.msg)

/- ===== Part E: the per-conversation turn queue ===== -/

/- A queued turn task: a state transformer with a fallible outcome. -/
def QTask (σ ε ρ : Type) := σ → σ × Except ε ρ

/- Execution of one conversation chain.  enqueueTurn builds
   current.catch(discard).then(run next), so the next task starts exactly
   when the previous one has settled, whatever its outcome was; the chain is
   therefore sequential execution of the tasks in order, each outcome kept
   separately for its own submitter. -/
def execChain {σ ε ρ : Type} : List (QTask σ ε ρ) → σ → σ × List (Except ε ρ)
  | [], s => (s, [])
  | t :: ts, s =>
    let r := t s
    let rest := execChain ts r.1
    (rest.1, r.2 :: rest.2)

/- The turnQueues table, keyed by conversation id; each value is the chain
   of tasks submitted for that id, in submission order.  Map.set with no
   deletion anywhere: an entry, once created, is only ever extended. -/
def submitTurn {σ ε ρ : Type} :
    List (String × List (QTask σ ε ρ)) → String → QTask σ ε ρ →
    List (String × List (QTask σ ε ρ))
  | [], cid, t => [(cid, [t])]
  | (k, ch) :: rest, cid, t =>
    if k == cid then (k, ch ++ [t]) :: rest else (k, ch) :: submitTurn rest cid t

def chainOf {σ ε ρ : Type} (tbl : List (String × List (QTask σ ε ρ))) (cid : String) :
    List (QTask σ ε ρ) :=
  match tbl.find? (fun p => p.1 == cid) with
  | some p => p.2
  | none => []

def submitAll {σ ε ρ : Type} (tbl : List (String × List (QTask σ ε ρ)))
    (ops : List (String × QTask σ ε ρ)) : List (String × List (QTask σ ε ρ)) :=
  ops.foldl (fun tb op => submitTurn tb op.1 op.2) tbl

/- A coarser view of the same table for its retention behavior: per key,
   the number of tasks of its chain that have not yet settled.  The key set
   mirrors the keys of the turnQueues map. -/
def bumpQueue : List (String × Nat) → String → List (String × Nat)
  | [], cid => [(cid, 1)]
  | (k, n) :: rest, cid =>
    if k == cid then (k, n + 1) :: rest else (k, n) :: bumpQueue rest cid

def enqueueAllIds (tbl : List (String × Nat)) : List String → List (String × Nat)
  | [] => tbl
  | cid :: rest => enqueueAllIds (bumpQueue tbl cid) rest

/- All submitted work completes: every chain settles.  The map keeps every
   key, now holding a settled chain. -/
def drainAllQueues (tbl : List (String × Nat)) : List (String × Nat) :=
  tbl.map (fun p => (p.1, 0))

def keysOf (tbl : List (String × Nat)) : List String := tbl.map Prod.fst

/- A family of pairwise distinct conversation ids. -/
def idList (n : Nat) : List String :=
  (List.range n).map (fun i => String.mk (List.replicate i 'c'))

/- ===== Part F: claim-side definitions, written from the wording of the
   specification, for comparison with the source-derived definitions ===== -/

/- Strategy 1 of the locating protocol as the spec words it: a fenced block
   at the very start holding a single-line structured object; the consumed
   match is stripped and the remainder trimmed. -/
def stratFenced (text : String) : Option Signal :=
  (fencedMatch text.toList).bind (fun fm =>
    (directiveOf fm.1).map (fun nm =>
      { switchVoice := nm, replyText := jsTrim (String.mk fm.2) }))

/- Strategy 2: a bare single-line structured object on the first line. -/
def stratFirstLine (text : String) : Option Signal :=
  (bareFirstLineMatch text.toList).bind (fun fm =>
    (directiveOf fm.1).map (fun nm =>
      { switchVoice := nm, replyText := jsTrim (String.mk fm.2) }))

/- Strategy 3: scan the lines for the first one whose brace group parses to
   a directive; the whole matched line is removed and the remaining lines
   are joined back together. -/
def stratScan (text : String) : Option Signal :=
  let lines := splitChar '\n' text.toList
  match firstHit (fun l => ((scanFrag l).bind directiveOf).isSome) lines with
  | some i =>
    (match (nth lines i).bind (fun l => (scanFrag l).bind directiveOf) with
     | some nm =>
       some { switchVoice := nm,
              replyText := jsTrim (joinWith "\n" ((removeAt lines i).map String.mk)) }
     | none => none)
  | none => none

/- Whitespace-separated words of a string, as the claim about title
   derivation words it (empty fragments dropped). -/
def wordsAux : List Char → List Char → List (List Char)
  | acc, [] => if acc == ([] : List Char) then [] else [acc.reverse]
  | acc, c :: cs =>
    if jsWs c then
      (if acc == ([] : List Char) then wordsAux [] cs else acc.reverse :: wordsAux [] cs)
    else wordsAux (c :: acc) cs

/- The title the claim describes: the first six whitespace-separated words
   joined by single spaces, followed by the ellipsis marker. -/
def claimTitle (u : String) : String :=
  joinWith " " (((wordsAux [] u.toList).map String.mk).take 6) ++ "…"

/- Removal of the first occurrence of a fragment from a text, as the
   locating protocol words the stripping of the consumed fragment. -/
def removeFirst : List Char → List Char → List Char
  | _, [] => []
  | needle, c :: t =>
    if startsWithCL needle (c :: t) then (c :: t).drop needle.length
    else c :: removeFirst needle t

/- The reply the claim about stripping describes: only the consumed fragment
   removed from the text, the remainder trimmed. -/
def stripFragment (text frag : String) : String :=
  jsTrim (String.mk (removeFirst frag.toList text.toList))

/- ===== Part H: concrete sample values used by witnesses ===== -/

def adaV : Voice :=
  { id := "v-ada", name := "Ada", systemPrompt := "You are Ada.",
    elevenLabsVoiceId := "el-ada" }

def didiV : Voice :=
  { id := "v-didi", name := "Didi", systemPrompt := "You are Didi.",
    elevenLabsVoiceId := "el-didi" }

def qxqV : Voice :=
  { id := "v-q", name := "QXQ", systemPrompt := "You are QXQ.",
    elevenLabsVoiceId := "el-q" }

def baseEnv : Env :=
  { voices := [adaV, didiV],
    transcribeResult := Except.ok "transcribed words",
    chatResult := Except.ok (some "Sure thing!"),
    synthResult := Except.ok 0,
    uploadResult := Except.ok (),
    saveResult := Except.ok (),
    deleteResult := Except.ok (),
    now := 100, uuidSeed := 0 }

def newConv : Conversation :=
  { id := "c1", voiceId := "v-ada", title := "New Conversation", createdAt := 0,
    updatedAt := 0, messages := [] }

def priorUserMsg : Message :=
  { id := "m-u", turnId := some "t1", role := "user", content := some "hi",
    timestamp := 5 }

def priorAiMsg : Message :=
  { id := "m-a", turnId := some "t1", role := "assistant", content := some "hello",
    audioUrl := some "/api/audio/c1/m-a.mp3", timestamp := 6 }

def idemConv : Conversation :=
  { id := "c1", voiceId := "v-ada", title := "hi…", createdAt := 0, updatedAt := 6,
    messages := [priorUserMsg, priorAiMsg] }

def ghostConv : Conversation :=
  { id := "g1", voiceId := "ghost", title := "T", createdAt := 0, updatedAt := 0,
    messages := [] }

def textReq : TurnReq :=
  { turnId := "t1", transcribedText := some "Please switch to Didi" }

def spacedReq : TurnReq :=
  { turnId := "t1", transcribedText := some "a  b c d e f g" }

def failSaveEnv : Env :=
  { baseEnv with saveResult := Except.error { msg := "disk full" } }

def switchEnv : Env :=
  { baseEnv with chatResult := Except.ok (some "\x7b\"switchVoice\":\"Didi\"\x7d\nHello there.") }

def emptyRegEnv : Env :=
  { baseEnv with voices := [] }

def startSt : St := { convs := [newConv], blobs := [] }

def tA0 : QTask Nat Unit Nat := fun s => (s + 1, Except.error ())

def tB : QTask Nat Unit Nat := fun s => (s, Except.ok 0)

def tA1 : QTask Nat Unit Nat := fun s => (s * 2, Except.ok s)

/- ===== Part G: helper lemmas ===== -/

theorem findReplace (l : List Conversation) (c : Conversation)
    (h : l.any (fun x => x.id == c.id) = true) :
    (l.map (fun x => if x.id == c.id then c else x)).find? (fun x => x.id == c.id) = some c := by
  induction l with
  | nil => simp at h
  | cons a l ih =>
    simp only [List.map_cons]
    by_cases ha : (a.id == c.id) = true
    · rw [if_pos ha]
      exact @List.find?_cons_of_pos _ (fun x => x.id == c.id) c _ (by simp)
    · rw [if_neg ha, @List.find?_cons_of_neg _ (fun x => x.id == c.id) a _ ha]
      simp only [List.any_cons, Bool.or_eq_true] at h
      rcases h with h | h
      · exact absurd h ha
      · exact ih h

theorem findAppended (l : List Conversation) (c : Conversation)
    (h : l.any (fun x => x.id == c.id) = false) :
    (l ++ [c]).find? (fun x => x.id == c.id) = some c := by
  induction l with
  | nil => exact @List.find?_cons_of_pos _ (fun x => x.id == c.id) c _ (by simp)
  | cons a l ih =>
    simp only [List.any_cons, Bool.or_eq_false_iff] at h
    rw [List.cons_append,
      @List.find?_cons_of_neg _ (fun x => x.id == c.id) a _ (by simp [h.1])]
    exact ih h.2

theorem find?_saveConvSt (st : St) (c : Conversation) :
    (saveConvSt st c).convs.find? (fun x => x.id == c.id) = some c := by
  unfold saveConvSt
  by_cases h : st.convs.any (fun x => x.id == c.id)
  · rw [if_pos h]
    exact findReplace _ _ h
  · rw [if_neg h]
    exact findAppended _ _ (by simpa using h)

theorem mem_saveConvSt (st : St) (c c' : Conversation)
    (h : c' ∈ (saveConvSt st c).convs) : c' ∈ st.convs ∨ c' = c := by
  unfold saveConvSt at h
  by_cases ha : st.convs.any (fun x => x.id == c.id)
  · rw [if_pos ha] at h
    simp only [List.mem_map] at h
    rcases h with ⟨x, hx, hxc⟩
    by_cases hid : (x.id == c.id) = true
    · right
      rw [if_pos hid] at hxc
      exact hxc.symm
    · left
      rw [if_neg hid] at hxc
      exact hxc ▸ hx
  · rw [if_neg ha] at h
    rcases List.mem_append.mp h with h | h
    · exact Or.inl h
    · exact Or.inr (List.mem_singleton.mp h)

theorem applyTitle_messages (c : Conversation) (u : String) :
    (applyTitle c u).messages = c.messages := by
  unfold applyTitle
  split <;> rfl

theorem applyTitle_id (c : Conversation) (u : String) :
    (applyTitle c u).id = c.id := by
  unfold applyTitle
  split <;> rfl

theorem applyTitle_voiceId (c : Conversation) (u : String) :
    (applyTitle c u).voiceId = c.voiceId := by
  unfold applyTitle
  split <;> rfl

theorem applyTitle_title (c : Conversation) (u : String) :
    (applyTitle c u).title =
      (if c.title = "New Conversation" then deriveTitle u else c.title) := by
  unfold applyTitle
  by_cases h : c.title = "New Conversation"
  · simp [h]
  · simp [h]

theorem execChain_length {σ ε ρ : Type} (ts : List (QTask σ ε ρ)) (s : σ) :
    (execChain ts s).2.length = ts.length := by
  induction ts generalizing s with
  | nil => rfl
  | cons t ts ih =>
    simp only [execChain, List.length_cons, ih]

theorem execChain_nth {σ ε ρ : Type} (ts : List (QTask σ ε ρ)) (s : σ) (i : Nat)
    (t : QTask σ ε ρ) (h : nth ts i = some t) :
    nth (execChain ts s).2 i = some (t (execChain (ts.take i) s).1).2 := by
  induction ts generalizing s i with
  | nil => simp [nth] at h
  | cons t0 ts ih =>
    cases i with
    | zero =>
      simp only [nth] at h
      cases h
      rfl
    | succ i =>
      simp only [nth] at h
      simp only [execChain, nth, List.take_succ_cons]
      exact ih _ _ h

theorem chainOf_nil {σ ε ρ : Type} (cid : String) :
    chainOf ([] : List (String × List (QTask σ ε ρ))) cid = [] := rfl

theorem chainOf_cons {σ ε ρ : Type} (k : String) (ch : List (QTask σ ε ρ))
    (tbl : List (String × List (QTask σ ε ρ))) (cid : String) :
    chainOf ((k, ch) :: tbl) cid = if k = cid then ch else chainOf tbl cid := by
  by_cases h : k = cid
  · simp [chainOf, List.find?, h]
  · rw [if_neg h]
    simp only [chainOf, List.find?]
    rw [show (k == cid) = false from beq_eq_false_iff_ne.mpr h]

theorem chainOf_submitTurn {σ ε ρ : Type} (tbl : List (String × List (QTask σ ε ρ)))
    (cid cid' : String) (t : QTask σ ε ρ) :
    chainOf (submitTurn tbl cid t) cid' =
      (if cid' = cid then chainOf tbl cid' ++ [t] else chainOf tbl cid') := by
  induction tbl with
  | nil =>
    by_cases h : cid' = cid
    · subst h
      simp [submitTurn, chainOf_cons, chainOf_nil]
    · have h2 : ¬ cid = cid' := fun hh => h hh.symm
      simp [submitTurn, chainOf_cons, chainOf_nil, h, h2]
  | cons kv tbl ih =>
    obtain ⟨k, ch⟩ := kv
    by_cases hk : k = cid
    · subst hk
      by_cases h : cid' = k
      · subst h
        simp [submitTurn, chainOf_cons]
      · have h2 : ¬ k = cid' := fun hh => h hh.symm
        simp [submitTurn, chainOf_cons, h, h2]
    · have hk2 : ¬ (k == cid) = true := by simpa using hk
      by_cases h : cid' = k
      · subst h
        have h2 : ¬ cid' = cid := fun hh => hk ?_
        · simp [submitTurn, hk2, chainOf_cons, h2]
        · exact hh ▸ rfl
      · have h2 : ¬ k = cid' := fun hh => h hh.symm
        simp [submitTurn, hk2, chainOf_cons, h2, ih]

theorem chainOf_submitAll {σ ε ρ : Type} (ops : List (String × QTask σ ε ρ))
    (tbl : List (String × List (QTask σ ε ρ))) (cid : String) :
    chainOf (submitAll tbl ops) cid =
      chainOf tbl cid ++ (ops.filter (fun o => o.1 == cid)).map (fun o => o.2) := by
  induction ops generalizing tbl with
  | nil => simp [submitAll]
  | cons op ops ih =>
    obtain ⟨k, t⟩ := op
    have step : submitAll tbl ((k, t) :: ops) = submitAll (submitTurn tbl k t) ops := rfl
    rw [step, ih, chainOf_submitTurn]
    by_cases h : cid = k
    · subst h
      simp [List.filter_cons]
    · have h2 : ¬ (k == cid) = true := by simpa using fun hh => h hh.symm
      simp [List.filter_cons, h, h2]

theorem keysOf_bumpQueue (tbl : List (String × Nat)) (cid : String) :
    keysOf (bumpQueue tbl cid) =
      (if cid ∈ keysOf tbl then keysOf tbl else keysOf tbl ++ [cid]) := by
  induction tbl with
  | nil => simp [bumpQueue, keysOf]
  | cons kv tbl ih =>
    obtain ⟨k, n⟩ := kv
    by_cases h : k = cid
    · subst h
      simp [bumpQueue, keysOf]
    · have h2 : (k == cid) = false := beq_eq_false_iff_ne.mpr h
      have h3 : ¬ cid = k := fun hh => h hh.symm
      have hcons : bumpQueue ((k, n) :: tbl) cid = (k, n) :: bumpQueue tbl cid := by
        simp [bumpQueue, h2]
      rw [hcons,
        show keysOf ((k, n) :: bumpQueue tbl cid) = k :: keysOf (bumpQueue tbl cid) from rfl,
        ih]
      by_cases hm : cid ∈ keysOf tbl
      · rw [if_pos hm,
          if_pos (show cid ∈ keysOf ((k, n) :: tbl) from List.mem_cons_of_mem _ hm)]
        rfl
      · rw [if_neg hm, if_neg ?_]
        · rfl
        · intro hmem
          rcases List.mem_cons.mp hmem with hh | hh
          · exact h3 hh
          · exact hm hh

theorem mem_keysOf_bumpQueue (tbl : List (String × Nat)) (cid : String) :
    cid ∈ keysOf (bumpQueue tbl cid) := by
  rw [keysOf_bumpQueue]
  by_cases h : cid ∈ keysOf tbl
  · rw [if_pos h]
    exact h
  · rw [if_neg h]
    simp

theorem keysOf_bumpQueue_mono (tbl : List (String × Nat)) (cid c : String)
    (h : c ∈ keysOf tbl) : c ∈ keysOf (bumpQueue tbl cid) := by
  rw [keysOf_bumpQueue]
  by_cases hm : cid ∈ keysOf tbl
  · rw [if_pos hm]
    exact h
  · rw [if_neg hm]
    exact List.mem_append_left _ h

theorem mem_keysOf_enqueueAllIds (tbl : List (String × Nat)) (ids : List String)
    (cid : String) (h : cid ∈ ids ∨ cid ∈ keysOf tbl) :
    cid ∈ keysOf (enqueueAllIds tbl ids) := by
  induction ids generalizing tbl with
  | nil =>
    rcases h with h | h
    · simp at h
    · exact h
  | cons i ids ih =>
    simp only [enqueueAllIds]
    rcases h with h | h
    · rcases List.mem_cons.mp h with h | h
      · subst h
        exact ih _ (Or.inr (mem_keysOf_bumpQueue _ _))
      · exact ih _ (Or.inl h)
    · exact ih _ (Or.inr (keysOf_bumpQueue_mono _ _ _ h))

theorem keysOf_enqueueAllIds_fresh (ids : List String) (tbl : List (String × Nat))
    (hnd : ids.Nodup) (hfresh : ∀ i ∈ ids, i ∉ keysOf tbl) :
    keysOf (enqueueAllIds tbl ids) = keysOf tbl ++ ids := by
  induction ids generalizing tbl with
  | nil => simp [enqueueAllIds]
  | cons i ids ih =>
    simp only [enqueueAllIds]
    have hi : i ∉ keysOf tbl := hfresh i (List.mem_cons_self i ids)
    have hb : keysOf (bumpQueue tbl i) = keysOf tbl ++ [i] := by
      rw [keysOf_bumpQueue, if_neg hi]
    have hfresh2 : ∀ j ∈ ids, j ∉ keysOf (bumpQueue tbl i) := by
      intro j hj
      rw [hb]
      intro hmem
      rcases List.mem_append.mp hmem with hm | hm
      · exact hfresh j (List.mem_cons_of_mem _ hj) hm
      · rcases List.mem_singleton.mp hm with rfl
        exact (List.nodup_cons.mp hnd).1 hj
    rw [ih (bumpQueue tbl i) (List.Nodup.of_cons hnd) hfresh2, hb, List.append_assoc]
    rfl

theorem keysOf_drainAllQueues (tbl : List (String × Nat)) :
    keysOf (drainAllQueues tbl) = keysOf tbl := by
  simp [keysOf, drainAllQueues, List.map_map]

theorem idList_length (n : Nat) : (idList n).length = n := by
  simp [idList]

theorem idList_nodup (n : Nat) : (idList n).Nodup := by
  apply List.Nodup.map ?_ (List.nodup_range n)
  intro a b h
  injection h with h2
  have := congrArg List.length h2
  simpa using this

theorem resolveSignal_noMatch (voices : List Voice) (cvid : String) (voice : Voice)
    (trimmed : String) (s : Signal)
    (hm : voiceMatches voices (jsTrim s.switchVoice) = []) :
    resolveSignal voices cvid voice trimmed (some s) =
      ("I couldn\x27t find a voice named \"" ++ jsTrim s.switchVoice ++ "\".",
       voice.elevenLabsVoiceId, none) := by
  simp only [resolveSignal, hm]

theorem resolveSignal_already (voices : List Voice) (cvid : String) (voice : Voice)
    (trimmed : String) (s : Signal) (m : Voice)
    (hm : voiceMatches voices (jsTrim s.switchVoice) = [m])
    (hid : (m.id == cvid) = true) :
    resolveSignal voices cvid voice trimmed (some s) =
      ("I\x27m already speaking as " ++ m.name ++ ".", voice.elevenLabsVoiceId, none) := by
  simp only [resolveSignal, hm, hid, if_true]

theorem resolveSignal_switch (voices : List Voice) (cvid : String) (voice : Voice)
    (trimmed : String) (s : Signal) (m : Voice)
    (hm : voiceMatches voices (jsTrim s.switchVoice) = [m])
    (hid : (m.id == cvid) = false) :
    resolveSignal voices cvid voice trimmed (some s) =
      ((if s.replyText == "" then "No response" else s.replyText),
       m.elevenLabsVoiceId, some m) := by
  simp only [resolveSignal, hm, hid, Bool.false_eq_true, if_false]

theorem resolveSignal_ambiguous (voices : List Voice) (cvid : String) (voice : Voice)
    (trimmed : String) (s : Signal) (m1 m2 : Voice) (ms : List Voice)
    (hm : voiceMatches voices (jsTrim s.switchVoice) = m1 :: m2 :: ms) :
    resolveSignal voices cvid voice trimmed (some s) =
      ("Did you mean " ++ joinWith " or " ((m1 :: m2 :: ms).map (fun v => v.name)) ++ "?",
       voice.elevenLabsVoiceId, none) := by
  simp only [resolveSignal, hm]

theorem resolveSignal_none (voices : List Voice) (cvid : String) (voice : Voice)
    (trimmed : String) :
    resolveSignal voices cvid voice trimmed none =
      (trimmed, voice.elevenLabsVoiceId, none) := rfl

theorem persistTurn_saveOk_none (env : Env) (convId : String) (req : TurnReq) (st : St)
    (conv : Conversation) (voice : Voice) (u r t : String) (tc : Bool)
    (hsave : env.saveResult = Except.ok ()) :
    persistTurn env convId req st conv voice u r t none tc =
      (saveConvSt { st with blobs := st.blobs ++ [(convId, blobNameOf env)] }
         (applyTitle
           { conv with
             messages := conv.messages ++ [mkUserMessage env req u, mkAiMessage env convId req r],
             updatedAt := env.now } u),
       TurnOut.ok (some (mkUserMessage env req u)) (some (mkAiMessage env convId req r)) none,
       { transcribe := tc, chat := true, synth := true, synthVoice := some t }) := by
  unfold persistTurn
  rw [hsave]

theorem persistTurn_saveOk_some (env : Env) (convId : String) (req : TurnReq) (st : St)
    (conv : Conversation) (voice : Voice) (u r t : String) (mv : Voice) (tc : Bool)
    (hsave : env.saveResult = Except.ok ()) :
    persistTurn env convId req st conv voice u r t (some mv) tc =
      (saveConvSt { st with blobs := st.blobs ++ [(convId, blobNameOf env)] }
         (applyTitle
           { conv with
             voiceId := mv.id,
             messages := conv.messages ++
               [mkUserMessage env req u, mkAiMessage env convId req r,
                mkSwitchEvent env req conv voice mv],
             updatedAt := env.now } u),
       TurnOut.ok (some (mkUserMessage env req u)) (some (mkAiMessage env convId req r))
         (some (mkSwitchEvent env req conv voice mv)),
       { transcribe := tc, chat := true, synth := true, synthVoice := some t }) := by
  unfold persistTurn
  rw [hsave]

theorem persistTurn_saveFail (env : Env) (convId : String) (req : TurnReq) (st : St)
    (conv : Conversation) (voice : Voice) (u r t : String) (ps : Option Voice) (tc : Bool)
    (e : Err) (hsave : env.saveResult = Except.error e) :
    ((persistTurn env convId req st conv voice u r t ps tc).2.1 =
       TurnOut.err (jsErrStatus e) e.msg) ∧
    ((persistTurn env convId req st conv voice u r t ps tc).1.convs = st.convs) ∧
    (env.deleteResult = Except.ok () →
       (convId, blobNameOf env) ∉ (persistTurn env convId req st conv voice u r t ps tc).1.blobs) ∧
    (∀ e', env.deleteResult = Except.error e' →
       (persistTurn env convId req st conv voice u r t ps tc).1.blobs =
         st.blobs ++ [(convId, blobNameOf env)]) := by
  unfold persistTurn
  rw [hsave]
  cases hdel : env.deleteResult with
  | ok u2 =>
    refine ⟨rfl, rfl, fun _ => ?_, fun e' h => ?_⟩
    · simp [List.mem_filter]
    · cases h
  | error e' =>
    refine ⟨rfl, rfl, fun h => ?_, fun e'' h => ?_⟩
    · cases h
    · rfl

theorem runPipeline_ok (env : Env) (convId : String) (req : TurnReq) (st : St)
    (conv : Conversation) (voice : Voice) (userText : String) (tc : Bool)
    (aiText : Option String) (a : Nat)
    (hv : env.voices.find? (fun v => v.id == conv.voiceId) = some voice)
    (hu : getUserText env req = (Except.ok userText, tc))
    (hc : env.chatResult = Except.ok aiText)
    (hs : env.synthResult = Except.ok a)
    (hup : env.uploadResult = Except.ok ()) :
    runPipeline env convId req st conv =
      persistTurn env convId req st conv voice userText
        (resolveSignal env.voices conv.voiceId voice (normalizeAiText aiText)
          (extractSwitchVoiceSignal (normalizeAiText aiText))).1
        (resolveSignal env.voices conv.voiceId voice (normalizeAiText aiText)
          (extractSwitchVoiceSignal (normalizeAiText aiText))).2.1
        (resolveSignal env.voices conv.voiceId voice (normalizeAiText aiText)
          (extractSwitchVoiceSignal (normalizeAiText aiText))).2.2 tc := by
  unfold runPipeline
  rw [hv, hu, hc, hs, hup]

theorem persistTurn_no_recovery (env : Env) (convId : String) (req : TurnReq) (st : St)
    (conv : Conversation) (voice : Voice) (u r t : String) (ps : Option Voice) (tc : Bool)
    (hst : ∀ c ∈ st.convs, ∀ m ∈ c.messages, ¬ m.subtype = some "recovery")
    (hcm : ∀ m ∈ conv.messages, ¬ m.subtype = some "recovery") :
    ∀ c ∈ (persistTurn env convId req st conv voice u r t ps tc).1.convs,
      ∀ m ∈ c.messages, ¬ m.subtype = some "recovery" := by
  unfold persistTurn
  cases hsv : env.saveResult with
  | error e =>
    cases env.deleteResult with
    | ok u2 => exact hst
    | error e2 => exact hst
  | ok u2 =>
    cases ps with
    | none =>
      intro c hc m hm hsub
      rcases mem_saveConvSt _ _ _ hc with h | rfl
      · exact hst c h m hm hsub
      · rw [applyTitle_messages] at hm
        rcases List.mem_append.mp hm with h | h
        · exact hcm m h hsub
        · rcases List.mem_cons.mp h with rfl | h
          · cases hsub
          · rcases List.mem_singleton.mp h with rfl
            cases hsub
    | some mv =>
      intro c hc m hm hsub
      rcases mem_saveConvSt _ _ _ hc with h | rfl
      · exact hst c h m hm hsub
      · rw [applyTitle_messages] at hm
        rcases List.mem_append.mp hm with h | h
        · exact hcm m h hsub
        · rcases List.mem_cons.mp h with rfl | h
          · cases hsub
          · rcases List.mem_cons.mp h with rfl | h
            · cases hsub
            · rcases List.mem_singleton.mp h with rfl
              simp [mkSwitchEvent] at hsub

theorem runPipeline_no_recovery (env : Env) (convId : String) (req : TurnReq) (st : St)
    (conv : Conversation)
    (hst : ∀ c ∈ st.convs, ∀ m ∈ c.messages, ¬ m.subtype = some "recovery")
    (hcm : ∀ m ∈ conv.messages, ¬ m.subtype = some "recovery") :
    ∀ c ∈ (runPipeline env convId req st conv).1.convs,
      ∀ m ∈ c.messages, ¬ m.subtype = some "recovery" := by
  unfold runPipeline
  cases hv : env.voices.find? (fun v => v.id == conv.voiceId) with
  | none => exact hst
  | some voice =>
    rcases hu : getUserText env req with ⟨r, tc⟩
    cases r with
    | error e => exact hst
    | ok userText =>
      cases hc : env.chatResult with
      | error e => exact hst
      | ok aiText =>
        cases hs : env.synthResult with
        | error e => exact hst
        | ok a =>
          cases hup : env.uploadResult with
          | error e => exact hst
          | ok u2 =>
            exact persistTurn_no_recovery env convId req st conv voice _ _ _ _ tc hst hcm

theorem runTurn_no_recovery (env : Env) (convId : String) (req : TurnReq) (st : St)
    (hst : ∀ c ∈ st.convs, ∀ m ∈ c.messages, ¬ m.subtype = some "recovery") :
    ∀ c ∈ (runTurn env convId req st).1.convs,
      ∀ m ∈ c.messages, ¬ m.subtype = some "recovery" := by
  unfold runTurn
  by_cases h1 : req.turnId = ""
  · rw [if_pos h1]
    exact hst
  · rw [if_neg h1]
    by_cases h2 : req.file = none ∧ blankText req.transcribedText = true
    · rw [if_pos h2]
      exact hst
    · rw [if_neg h2]
      cases hf : st.convs.find? (fun c => c.id == convId) with
      | none => exact hst
      | some conv =>
        dsimp only
        by_cases hlen :
            0 < (conv.messages.filter (fun m => m.turnId == some req.turnId)).length
        · rw [if_pos hlen]
          exact hst
        · rw [if_neg hlen]
          exact runPipeline_no_recovery env convId req st conv hst
            (fun m hm => hst conv (List.mem_of_find?_eq_some hf) m hm)

theorem scanStep (l : List Char) (ls acc : List (List Char))
    (hp : (scanFrag l).bind directiveOf = none) :
    ((match firstHit (fun x => ((scanFrag x).bind directiveOf).isSome) ls with
     | some i =>
       (match (nth ls i).bind (fun x => (scanFrag x).bind directiveOf) with
        | some nm =>
          some { switchVoice := nm,
                 replyText :=
                   jsTrim (joinWith "\n" (((l :: acc).reverse ++ removeAt ls i).map String.mk)) }
        | none => none)
     | none => none) : Option Signal) =
    ((match firstHit (fun x => ((scanFrag x).bind directiveOf).isSome) (l :: ls) with
     | some i =>
       (match (nth (l :: ls) i).bind (fun x => (scanFrag x).bind directiveOf) with
        | some nm =>
          some { switchVoice := nm,
                 replyText :=
                   jsTrim (joinWith "\n" ((acc.reverse ++ removeAt (l :: ls) i).map String.mk)) }
        | none => none)
     | none => none) : Option Signal) := by
  have hcons : firstHit (fun x => ((scanFrag x).bind directiveOf).isSome) (l :: ls) =
      (firstHit (fun x => ((scanFrag x).bind directiveOf).isSome) ls).map (· + 1) := by
    simp only [firstHit, hp, Option.isSome_none, Bool.false_eq_true, if_false]
  rw [hcons]
  cases hrest : firstHit (fun x => ((scanFrag x).bind directiveOf).isSome) ls with
  | none => rfl
  | some i =>
    simp only [Option.map_some',
      show nth (l :: ls) (i + 1) = nth ls i from rfl,
      show removeAt (l :: ls) (i + 1) = l :: removeAt ls i from rfl,
      List.reverse_cons, List.append_assoc, List.singleton_append]

theorem scanLoop_eq (ls acc : List (List Char)) :
    scanLoop acc ls =
      ((match firstHit (fun x => ((scanFrag x).bind directiveOf).isSome) ls with
        | some i =>
          (match (nth ls i).bind (fun x => (scanFrag x).bind directiveOf) with
           | some nm =>
             some { switchVoice := nm,
                    replyText :=
                      jsTrim (joinWith "\n" ((acc.reverse ++ removeAt ls i).map String.mk)) }
           | none => none)
        | none => none) : Option Signal) := by
  induction ls generalizing acc with
  | nil => rfl
  | cons l ls ih =>
    cases hp : (scanFrag l).bind directiveOf with
    | none =>
      have hstep : scanLoop acc (l :: ls) = scanLoop (l :: acc) ls := by
        cases hf : scanFrag l with
        | none => simp only [scanLoop, hf]
        | some frag =>
          have hd : directiveOf frag = none := by
            rw [hf] at hp
            simpa using hp
          simp only [scanLoop, hf, hd]
      rw [hstep, ih (l :: acc), scanStep l ls acc hp]
    | some nm =>
      obtain ⟨frag, hf, hd⟩ : ∃ frag, scanFrag l = some frag ∧ directiveOf frag = some nm := by
        cases hf : scanFrag l with
        | none =>
          rw [hf] at hp
          simp at hp
        | some frag =>
          rw [hf] at hp
          exact ⟨frag, rfl, by simpa using hp⟩
      have hstep : scanLoop acc (l :: ls) =
          some { switchVoice := nm,
                 replyText := jsTrim (joinWith "\n" ((acc.reverse ++ ls).map String.mk)) } := by
        simp only [scanLoop, hf, hd]
      rw [hstep]
      have hfh : firstHit (fun x => ((scanFrag x).bind directiveOf).isSome) (l :: ls) =
          some 0 := by
        simp only [firstHit, hp, Option.isSome_some, if_true]
      rw [hfh]
      simp only [show ((nth (l :: ls) 0).bind (fun x => (scanFrag x).bind directiveOf)) =
          some nm from by simp [nth, hp],
        show removeAt (l :: ls) 0 = ls from rfl]

theorem extractScan_eq (text : String) : extractScan text.toList = stratScan text := by
  unfold extractScan stratScan
  rw [scanLoop_eq]
  simp

theorem extractAfterFenced_eq (text : String) :
    extractAfterFenced text.toList =
      ((stratFirstLine text).orElse (fun _ => stratScan text)) := by
  unfold extractAfterFenced
  cases hb : bareFirstLineMatch text.toList with
  | none =>
    rw [show stratFirstLine text = none from by unfold stratFirstLine; rw [hb]; rfl]
    rw [show extractScan text.toList = stratScan text from extractScan_eq text]
    rfl
  | some fm =>
    cases hd : directiveOf fm.1 with
    | none =>
      rw [show stratFirstLine text = none from by unfold stratFirstLine; rw [hb]; simp [hd]]
      dsimp only
      rw [hd]
      rw [show extractScan text.toList = stratScan text from extractScan_eq text]
      rfl
    | some nm =>
      rw [show stratFirstLine text =
          some { switchVoice := nm, replyText := jsTrim (String.mk fm.2) } from by
        unfold stratFirstLine
        rw [hb]
        simp [hd]]
      dsimp only
      rw [hd]
      rfl

theorem persistTurn_saveOk_parts (env : Env) (convId : String) (req : TurnReq) (st : St)
    (conv : Conversation) (voice : Voice) (u r t : String) (ps : Option Voice) (tc : Bool)
    (hsave : env.saveResult = Except.ok ()) :
    ∃ savedConv : Conversation,
      (persistTurn env convId req st conv voice u r t ps tc).1 =
        saveConvSt { st with blobs := st.blobs ++ [(convId, blobNameOf env)] } savedConv ∧
      savedConv.id = conv.id ∧
      savedConv.title = (if conv.title = "New Conversation" then deriveTitle u else conv.title) := by
  cases ps with
  | none =>
    rw [persistTurn_saveOk_none env convId req st conv voice u r t tc hsave]
    refine ⟨_, rfl, ?_, ?_⟩
    · rw [applyTitle_id]
    · rw [applyTitle_title]
  | some mv =>
    rw [persistTurn_saveOk_some env convId req st conv voice u r t mv tc hsave]
    refine ⟨_, rfl, ?_, ?_⟩
    · rw [applyTitle_id]
    · rw [applyTitle_title]

/- ===== Part I: the claims ===== -/

/-- C1: for every well-formed turn request whose turn id already appears on
at least one message of the loaded conversation, the turn endpoint returns
the previously persisted user entry and assistant entry (and the
persona-switch event carrying that turn id, if one exists), terminates
without calling the transcription, reasoning or synthesis providers, without
appending any entry, and without modifying the conversation record or any
timestamp: the state is returned unchanged and the call record is empty, and
each returned entry is an element of the stored message list. -/
theorem C1_idempotent_replay
    (env : Env) (convId : String) (req : TurnReq) (st : St) (conv : Conversation)
    (hT : ¬ req.turnId = "")
    (hIn : ¬ (req.file = none ∧ blankText req.transcribedText = true))
    (hconv : st.convs.find? (fun c => c.id == convId) = some conv)
    (hex : 0 < (conv.messages.filter (fun m => m.turnId == some req.turnId)).length) :
    (runTurn env convId req st =
      (st,
       TurnOut.ok
         ((conv.messages.filter (fun m => m.turnId == some req.turnId)).find?
           (fun m => m.role == "user"))
         ((conv.messages.filter (fun m => m.turnId == some req.turnId)).find?
           (fun m => m.role == "assistant"))
         ((conv.messages.filter (fun m => m.turnId == some req.turnId)).find? (fun m =>
           m.role == "system" && m.msgType == some "voiceSwitch" &&
             m.turnId == some req.turnId)),
       ({} : Calls))) ∧
    (∀ m, (conv.messages.filter (fun m => m.turnId == some req.turnId)).find?
        (fun m => m.role == "user") = some m → m ∈ conv.messages) ∧
    (∀ m, (conv.messages.filter (fun m => m.turnId == some req.turnId)).find?
        (fun m => m.role == "assistant") = some m → m ∈ conv.messages) ∧
    (∀ m, (conv.messages.filter (fun m => m.turnId == some req.turnId)).find? (fun m =>
        m.role == "system" && m.msgType == some "voiceSwitch" &&
          m.turnId == some req.turnId) = some m → m ∈ conv.messages) := by
  refine ⟨?_, ?_, ?_, ?_⟩
  · unfold runTurn
    rw [if_neg hT, if_neg hIn, hconv]
    simp only [if_pos hex]
  · intro m hm
    exact List.mem_of_mem_filter (List.mem_of_find?_eq_some hm)
  · intro m hm
    exact List.mem_of_mem_filter (List.mem_of_find?_eq_some hm)
  · intro m hm
    exact List.mem_of_mem_filter (List.mem_of_find?_eq_some hm)

/-- Witness for C1: replaying turn id t1 on a conversation already holding
its two entries returns exactly those stored entries, leaves the state
untouched and performs no provider call. -/
theorem C1_idempotent_replay_witness :
    runTurn baseEnv "c1" { turnId := "t1", transcribedText := some "hi again" }
        { convs := [idemConv], blobs := [] } =
      ({ convs := [idemConv], blobs := [] },
       TurnOut.ok (some priorUserMsg) (some priorAiMsg) none, ({} : Calls)) := by
  have h := C1_idempotent_replay baseEnv "c1"
    { turnId := "t1", transcribedText := some "hi again" }
    { convs := [idemConv], blobs := [] } idemConv
    (by decide) (by decide) (by decide) (by decide)
  exact h.1.trans (by decide)

/-- C8: a turn request that supplies neither an audio payload nor non-blank
pre-transcribed text is rejected with a validation error of status 400
before any provider call, leaving the conversation store (and every blob)
unchanged. -/
theorem C8_validation_rejects (env : Env) (convId : String) (req : TurnReq) (st : St)
    (h : req.file = none ∧ blankText req.transcribedText = true) :
    ((runTurn env convId req st).1 = st) ∧
    (∃ m, (runTurn env convId req st).2.1 = TurnOut.err 400 m) ∧
    ((runTurn env convId req st).2.2 = ({} : Calls)) := by
  unfold runTurn
  by_cases hT : req.turnId = ""
  · rw [if_pos hT]
    exact ⟨rfl, ⟨_, rfl⟩, rfl⟩
  · rw [if_neg hT, if_pos h]
    exact ⟨rfl, ⟨_, rfl⟩, rfl⟩

/-- Witness for C8: a request with a turn id but neither audio nor text is
rejected with status 400 and the state is unchanged. -/
theorem C8_validation_rejects_witness :
    ((runTurn baseEnv "c1" { turnId := "t9" } startSt).1 = startSt) ∧
    (∃ m, (runTurn baseEnv "c1" { turnId := "t9" } startSt).2.1 = TurnOut.err 400 m) ∧
    ((runTurn baseEnv "c1" { turnId := "t9" } startSt).2.2 = ({} : Calls)) :=
  C8_validation_rejects baseEnv "c1" { turnId := "t9" } startSt (by decide)

/-- C2: when the conversation-save step fails after the synthesized audio
blob was stored (the only fallible step after the upload in the pipeline),
the executor reports the original save error unchanged whatever the cleanup
deletion does, the persisted conversation store is exactly as before the
turn, the stored blob is gone again when the cleanup deletion succeeds, and
only when that deletion itself fails does the blob remain (the failure being
merely logged, never replacing the reported error). -/
theorem C2_compensating_cleanup
    (env : Env) (convId : String) (req : TurnReq) (st : St) (conv : Conversation)
    (voice : Voice) (userText : String) (tc : Bool) (aiText : Option String) (a : Nat)
    (e : Err)
    (hv : env.voices.find? (fun v => v.id == conv.voiceId) = some voice)
    (hu : getUserText env req = (Except.ok userText, tc))
    (hc : env.chatResult = Except.ok aiText)
    (hs : env.synthResult = Except.ok a)
    (hup : env.uploadResult = Except.ok ())
    (hsave : env.saveResult = Except.error e) :
    ((runPipeline env convId req st conv).2.1 = TurnOut.err (jsErrStatus e) e.msg) ∧
    ((runPipeline env convId req st conv).1.convs = st.convs) ∧
    (env.deleteResult = Except.ok () →
       (convId, blobNameOf env) ∉ (runPipeline env convId req st conv).1.blobs) ∧
    (∀ e', env.deleteResult = Except.error e' →
       (runPipeline env convId req st conv).1.blobs =
         st.blobs ++ [(convId, blobNameOf env)]) := by
  rw [runPipeline_ok env convId req st conv voice userText tc aiText a hv hu hc hs hup]
  exact persistTurn_saveFail env convId req st conv voice userText _ _ _ tc e hsave

/-- Witness for C2: a concrete run in which the save fails with a disk-full
error after the upload succeeded reports status 500 with that message, keeps
the store unchanged and removes the uploaded blob again. -/
theorem C2_compensating_cleanup_witness :
    ((runPipeline failSaveEnv "c1" textReq startSt newConv).2.1 =
       TurnOut.err (jsErrStatus { msg := "disk full" }) "disk full") ∧
    ((runPipeline failSaveEnv "c1" textReq startSt newConv).1.convs = startSt.convs) ∧
    (failSaveEnv.deleteResult = Except.ok () →
       ("c1", blobNameOf failSaveEnv) ∉
         (runPipeline failSaveEnv "c1" textReq startSt newConv).1.blobs) ∧
    (∀ e', failSaveEnv.deleteResult = Except.error e' →
       (runPipeline failSaveEnv "c1" textReq startSt newConv).1.blobs =
         startSt.blobs ++ [("c1", blobNameOf failSaveEnv)]) :=
  C2_compensating_cleanup failSaveEnv "c1" textReq startSt newConv adaV
    "Please switch to Didi" false (some "Sure thing!") 0 { msg := "disk full" }
    (by decide) rfl rfl rfl rfl rfl

/-- C3: for a fixed conversation id, the chain of the queue holds exactly
the tasks submitted for that id in submission order, executing the chain
yields exactly one outcome per task, and the i-th outcome is the i-th task
run on the state produced by the complete execution of all earlier tasks of
the chain — with no assumption on the earlier outcomes, so a failing task
neither halts nor poisons the queue, and each outcome is delivered at the
position of its own submitter. -/
theorem C3_queue_fifo_serialization (σ ε ρ : Type)
    (ops : List (String × QTask σ ε ρ)) (cid : String) (s : σ) (i : Nat)
    (t : QTask σ ε ρ)
    (hi : nth ((ops.filter (fun o => o.1 == cid)).map (fun o => o.2)) i = some t) :
    (chainOf (submitAll [] ops) cid =
       (ops.filter (fun o => o.1 == cid)).map (fun o => o.2)) ∧
    ((execChain (chainOf (submitAll [] ops) cid) s).2.length =
       ((ops.filter (fun o => o.1 == cid)).map (fun o => o.2)).length) ∧
    (nth (execChain (chainOf (submitAll [] ops) cid) s).2 i =
       some (t (execChain (((ops.filter (fun o => o.1 == cid)).map
         (fun o => o.2)).take i) s).1).2) := by
  have hch : chainOf (submitAll ([] : List (String × List (QTask σ ε ρ))) ops) cid =
      (ops.filter (fun o => o.1 == cid)).map (fun o => o.2) := by
    rw [chainOf_submitAll]
    rfl
  refine ⟨hch, ?_, ?_⟩
  · rw [hch, execChain_length]
  · rw [hch]
    exact execChain_nth _ s i t hi

/-- Witness for C3: three submissions, the first task for the id failing;
the second task for the same id still runs, on the state the failing task
left behind, and its outcome is delivered at its own position. -/
theorem C3_queue_fifo_serialization_witness :
    (chainOf (submitAll [] [("a", tA0), ("b", tB), ("a", tA1)]) "a" =
       (([("a", tA0), ("b", tB), ("a", tA1)].filter (fun o => o.1 == "a")).map
         (fun o => o.2))) ∧
    ((execChain (chainOf (submitAll [] [("a", tA0), ("b", tB), ("a", tA1)]) "a") 3).2.length =
       (([("a", tA0), ("b", tB), ("a", tA1)].filter (fun o => o.1 == "a")).map
         (fun o => o.2)).length) ∧
    (nth (execChain (chainOf (submitAll [] [("a", tA0), ("b", tB), ("a", tA1)]) "a") 3).2 1 =
       some (tA1 (execChain ((([("a", tA0), ("b", tB), ("a", tA1)].filter
         (fun o => o.1 == "a")).map (fun o => o.2)).take 1) 3).1).2) :=
  C3_queue_fifo_serialization Nat Unit Nat [("a", tA0), ("b", tB), ("a", tA1)] "a" 3 1 tA1
    (by rfl)

/-- C7 counterexample: the queue table of the source never drops an entry,
so the number of retained entries for conversation ids whose work has fully
completed admits no bound at all — refuting that the table holds entries
only for ids with pending or running work plus at most a bounded cache. -/
theorem C7_retention_counterexample :
    ¬ ∃ B : Nat, ∀ n : Nat,
        (keysOf (drainAllQueues (enqueueAllIds [] (idList n)))).length ≤ B := by
  rintro ⟨B, hB⟩
  have h := hB (B + 1)
  have hk : keysOf (drainAllQueues (enqueueAllIds [] (idList (B + 1)))) = idList (B + 1) := by
    rw [keysOf_drainAllQueues,
      keysOf_enqueueAllIds_fresh (idList (B + 1)) [] (idList_nodup _)
        (by intro i hi; simp [keysOf])]
    rfl
  rw [hk, idList_length] at h
  omega

/-- C7 amended: the queue table retains one entry per conversation id ever
submitted, for the lifetime of the process: after any sequence of
submissions followed by the completion of all queued work, every id that
was ever submitted (and every id already present) is still a key of the
table. -/
theorem C7_retention_amended (tbl : List (String × Nat)) (ids : List String)
    (cid : String) (h : cid ∈ ids ∨ cid ∈ keysOf tbl) :
    cid ∈ keysOf (drainAllQueues (enqueueAllIds tbl ids)) := by
  rw [keysOf_drainAllQueues]
  exact mem_keysOf_enqueueAllIds tbl ids cid h

/-- Witness for C7 amended: id c1, submitted once into an empty table and
fully drained, is still a key of the table. -/
theorem C7_retention_amended_witness :
    "c1" ∈ keysOf (drainAllQueues (enqueueAllIds [] ["c1"])) :=
  C7_retention_amended [] ["c1"] "c1" (Or.inl (by decide))

/-- C4 counterexample: with the single registered persona QXQ and the parsed
candidate name " x" (carrying surrounding whitespace), the match set the
claim defines — substring containment of the candidate as parsed — is
empty, so the claim predicts the not-found reply; the code, however, trims
the candidate first, matches QXQ uniquely, and answers that it is already
speaking as QXQ.  A second conjunct shows the empty stripped reply is not
kept verbatim on a switch but replaced by the placeholder. -/
theorem C4_match_counterexample :
    (voiceMatches [qxqV] " x" = []) ∧
    (resolveSignal [qxqV] "v-q" qxqV "raw reply"
        (some { switchVoice := " x", replyText := "hi" }) =
      ("I\x27m already speaking as QXQ.", "el-q", none)) ∧
    (("I\x27m already speaking as QXQ." : String) ≠
      "I couldn\x27t find a voice named \" x\".") ∧
    (resolveSignal [adaV, didiV] "v-ada" adaV "raw"
        (some { switchVoice := "Didi", replyText := "" }) =
      ("No response", "el-didi", some didiV)) := by
  exact ⟨by decide, by decide, by decide, by decide⟩

/-- C4 amended: given a parsed switch directive with candidate name c and
active persona a, the match set is every registered persona whose display
name contains, or is contained in, the whitespace-trimmed candidate,
case-insensitively; with zero matches the reply text is replaced by the
not-found message; with two or more matches by the disambiguation question
listing the matched names; with one match equal to the active persona by
the already-speaking message, no switch occurring in those cases; and with
one match different from the active persona the signal-stripped reply text
is kept (the placeholder standing in when it is empty), synthesis uses the
matched persona voice handle, and the executor appends a switch-subtype
persona-switch entry alongside the user and assistant entries of the turn. -/
theorem C4_match_resolution_amended (voices : List Voice) (convVoiceId : String)
    (voice : Voice) (trimmedAiText : String) (s : Signal) :
    (voiceMatches voices (jsTrim s.switchVoice) = [] →
       resolveSignal voices convVoiceId voice trimmedAiText (some s) =
         ("I couldn\x27t find a voice named \"" ++ jsTrim s.switchVoice ++ "\".",
          voice.elevenLabsVoiceId, none)) ∧
    (∀ m1 m2 ms, voiceMatches voices (jsTrim s.switchVoice) = m1 :: m2 :: ms →
       resolveSignal voices convVoiceId voice trimmedAiText (some s) =
         ("Did you mean " ++ joinWith " or " ((m1 :: m2 :: ms).map (fun v => v.name)) ++ "?",
          voice.elevenLabsVoiceId, none)) ∧
    (∀ m, voiceMatches voices (jsTrim s.switchVoice) = [m] → m.id = convVoiceId →
       resolveSignal voices convVoiceId voice trimmedAiText (some s) =
         ("I\x27m already speaking as " ++ m.name ++ ".", voice.elevenLabsVoiceId, none)) ∧
    (∀ m, voiceMatches voices (jsTrim s.switchVoice) = [m] → ¬ m.id = convVoiceId →
       resolveSignal voices convVoiceId voice trimmedAiText (some s) =
         ((if s.replyText == "" then "No response" else s.replyText),
          m.elevenLabsVoiceId, some m)) ∧
    (∀ (env : Env) (convId : String) (req : TurnReq) (st : St) (conv : Conversation)
       (tc : Bool) (aiText : Option String) (a : Nat) (m : Voice),
       env.voices = voices → conv.voiceId = convVoiceId →
       env.voices.find? (fun v => v.id == conv.voiceId) = some voice →
       (∀ userText, getUserText env req = (Except.ok userText, tc) →
        env.chatResult = Except.ok aiText →
        env.synthResult = Except.ok a →
        env.uploadResult = Except.ok () →
        env.saveResult = Except.ok () →
        extractSwitchVoiceSignal (normalizeAiText aiText) = some s →
        voiceMatches voices (jsTrim s.switchVoice) = [m] → ¬ m.id = convVoiceId →
        ∃ savedConv um am vse,
          ((runPipeline env convId req st conv).2.1 =
             TurnOut.ok (some um) (some am) (some vse)) ∧
          ((runPipeline env convId req st conv).1.convs.find?
             (fun x => x.id == savedConv.id) = some savedConv) ∧
          savedConv.messages = conv.messages ++ [um, am, vse] ∧
          vse.subtype = some "switch" ∧
          am.content = some (if s.replyText == "" then "No response" else s.replyText) ∧
          ((runPipeline env convId req st conv).2.2.synthVoice =
             some m.elevenLabsVoiceId))) := by
  refine ⟨?_, ?_, ?_, ?_, ?_⟩
  · intro hm
    exact resolveSignal_noMatch voices convVoiceId voice trimmedAiText s hm
  · intro m1 m2 ms hm
    exact resolveSignal_ambiguous voices convVoiceId voice trimmedAiText s m1 m2 ms hm
  · intro m hm hid
    exact resolveSignal_already voices convVoiceId voice trimmedAiText s m hm
      (by simpa using hid)
  · intro m hm hid
    exact resolveSignal_switch voices convVoiceId voice trimmedAiText s m hm
      (beq_eq_false_iff_ne.mpr hid)
  · intro env convId req st conv tc aiText a m hve hcv hv userText hu hc hs hup hsave hsig hm hne
    subst hve
    subst hcv
    rw [runPipeline_ok env convId req st conv voice userText tc aiText a hv hu hc hs hup,
      hsig,
      resolveSignal_switch env.voices conv.voiceId voice (normalizeAiText aiText) s m hm
        (beq_eq_false_iff_ne.mpr hne)]
    dsimp only
    rw [persistTurn_saveOk_some env convId req st conv voice userText
      (if s.replyText == "" then "No response" else s.replyText) m.elevenLabsVoiceId m tc hsave]
    refine ⟨applyTitle
        { conv with
          voiceId := m.id,
          messages := conv.messages ++
            [mkUserMessage env req userText,
             mkAiMessage env convId req
               (if s.replyText == "" then "No response" else s.replyText),
             mkSwitchEvent env req conv voice m],
          updatedAt := env.now } userText,
      mkUserMessage env req userText,
      mkAiMessage env convId req (if s.replyText == "" then "No response" else s.replyText),
      mkSwitchEvent env req conv voice m,
      rfl, ?_, ?_, rfl, rfl, rfl⟩
    · exact find?_saveConvSt _ _
    · rw [applyTitle_messages]

/-- Witness for C4 amended: the candidate Didi resolved against personas
Ada (active) and Didi keeps the stripped reply, synthesizes with the Didi
voice handle and produces the pending switch to Didi. -/
theorem C4_match_resolution_amended_witness :
    resolveSignal [adaV, didiV] "v-ada" adaV "x"
        (some { switchVoice := "Didi", replyText := "Hello there." }) =
      ("Hello there.", "el-didi", some didiV) := by
  have h := C4_match_resolution_amended [adaV, didiV] "v-ada" adaV "x"
    { switchVoice := "Didi", replyText := "Hello there." }
  exact (h.2.2.2.1 didiV (by decide) (by decide)).trans (by decide)

/-- C5 counterexample: on a reply whose only line carries text around the
structured object, the extractor recognizes the directive but discards the
entire line, so the reply text is empty — not the fragment-stripped
remainder the claim describes, which here would keep the surrounding words. -/
theorem C5_strip_counterexample :
    (extractSwitchVoiceSignal "say \x7b\"switchVoice\":\"Didi\"\x7d now" =
       some { switchVoice := "Didi", replyText := "" }) ∧
    (stripFragment "say \x7b\"switchVoice\":\"Didi\"\x7d now"
       "\x7b\"switchVoice\":\"Didi\"\x7d" = "say  now") ∧
    (("" : String) ≠ "say  now") := by
  exact ⟨by decide, by decide, by decide⟩

/-- C5 amended: the extractor tries, in order, a fenced block at the very
start holding a single-line structured object, then a bare single-line
structured object on the first line, then a line-by-line scan, falling
through to the next strategy when a location does not match or its fragment
does not parse to a directive (an object whose recognized field, the target
persona name, is a non-empty string); on success the consumed match is
stripped and the remainder trimmed — in the line-scan strategy the whole
matched line is removed, even when other text surrounds the fragment on
that line, and the remaining lines are joined — and when every strategy
fails the result is no signal. -/
theorem C5_locating_protocol_amended (text : String) :
    extractSwitchVoiceSignal text =
      (if text == "" then none
       else ((stratFenced text).orElse
         (fun _ => (stratFirstLine text).orElse (fun _ => stratScan text)))) := by
  unfold extractSwitchVoiceSignal
  by_cases h : (text == "") = true
  · rw [if_pos h, if_pos h]
  · rw [if_neg h, if_neg h]
    dsimp only
    cases hfm : fencedMatch text.toList with
    | none =>
      rw [show stratFenced text = none from by unfold stratFenced; rw [hfm]; rfl]
      dsimp only
      rw [show extractAfterFenced text.toList =
          ((stratFirstLine text).orElse (fun _ => stratScan text)) from
        extractAfterFenced_eq text]
      rfl
    | some fm =>
      cases hd : directiveOf fm.1 with
      | none =>
        rw [show stratFenced text = none from by unfold stratFenced; rw [hfm]; simp [hd]]
        dsimp only
        rw [hd]
        rw [show extractAfterFenced text.toList =
            ((stratFirstLine text).orElse (fun _ => stratScan text)) from
          extractAfterFenced_eq text]
        rfl
      | some nm =>
        rw [show stratFenced text =
            some { switchVoice := nm, replyText := jsTrim (String.mk fm.2) } from by
          unfold stratFenced
          rw [hfm]
          simp [hd]]
        dsimp only
        rw [hd]
        rfl

/-- C6 counterexample: a conversation whose active voice id matches no
registered voice, read under an empty registry, is returned unchanged —
no recovery substitution, no appended recovery event, no save — so the
record stays referencing the absent persona. -/
theorem C6_recovery_counterexample :
    (emptyRegEnv.voices.find? (fun v => v.id == ghostConv.voiceId) = none) ∧
    (getConversationRoute emptyRegEnv "g1" { convs := [ghostConv], blobs := [] } =
       ({ convs := [ghostConv], blobs := [] }, GetOut.ok ghostConv)) := by
  exact ⟨by decide, by decide⟩

/-- C6 amended: on every read of a conversation whose active voice id
matches no registered voice, provided the registry is non-empty, a recovery
step substitutes the first registered voice, appends a recovery-subtype
persona-switch event with a null turn id recording the stale source voice
id and the target voice, and saves the record; with an empty registry the
record is returned unchanged; and the recovery subtype arises only on the
read path — a turn execution never creates a recovery-subtype entry. -/
theorem C6_recovery_amended (env : Env) (convId : String) (st : St) (conv : Conversation)
    (v0 : Voice) (vs : List Voice)
    (hlook : st.convs.find? (fun c => c.id == convId) = some conv)
    (hmiss : env.voices.find? (fun v => v.id == conv.voiceId) = none)
    (hreg : env.voices = v0 :: vs)
    (hsave : env.saveResult = Except.ok ()) :
    (getConversationRoute env convId st =
       (saveConvSt st
          { conv with
            voiceId := v0.id,
            messages := conv.messages ++ [mkRecoveryEvent env conv v0],
            updatedAt := env.now },
        GetOut.ok
          { conv with
            voiceId := v0.id,
            messages := conv.messages ++ [mkRecoveryEvent env conv v0],
            updatedAt := env.now })) ∧
    ((mkRecoveryEvent env conv v0).turnId = none) ∧
    ((mkRecoveryEvent env conv v0).subtype = some "recovery") ∧
    ((mkRecoveryEvent env conv v0).fromVoiceId = some conv.voiceId) ∧
    ((mkRecoveryEvent env conv v0).toVoiceId = some v0.id) ∧
    ((mkRecoveryEvent env conv v0).toVoiceName = some v0.name) ∧
    (∀ (env' : Env) (convId' : String) (req' : TurnReq) (st' : St),
       (∀ c ∈ st'.convs, ∀ m ∈ c.messages, ¬ m.subtype = some "recovery") →
       ∀ c ∈ (runTurn env' convId' req' st').1.convs, ∀ m ∈ c.messages,
         ¬ m.subtype = some "recovery") := by
  refine ⟨?_, rfl, rfl, rfl, rfl, rfl,
    fun env' convId' req' st' h => runTurn_no_recovery env' convId' req' st' h⟩
  unfold getConversationRoute
  rw [hlook]
  dsimp only
  rw [hmiss]
  dsimp only
  rw [hreg]
  dsimp only
  rw [hsave]

/-- Witness for C6 amended: the ghost conversation read under a registry
led by Ada is repaired to Ada with an appended recovery event and saved. -/
theorem C6_recovery_amended_witness :
    getConversationRoute baseEnv "g1" { convs := [ghostConv], blobs := [] } =
      (saveConvSt { convs := [ghostConv], blobs := [] }
         { ghostConv with
           voiceId := adaV.id,
           messages := ghostConv.messages ++ [mkRecoveryEvent baseEnv ghostConv adaV],
           updatedAt := baseEnv.now },
       GetOut.ok
         { ghostConv with
           voiceId := adaV.id,
           messages := ghostConv.messages ++ [mkRecoveryEvent baseEnv ghostConv adaV],
           updatedAt := baseEnv.now }) :=
  (C6_recovery_amended baseEnv "g1" { convs := [ghostConv], blobs := [] } ghostConv adaV
    [didiV] (by decide) (by decide) rfl rfl).1

/-- C9 counterexample: a successful first turn with user utterance
containing a doubled space yields the saved title built by splitting on
single spaces (keeping the empty fragment), while the claim, splitting on
whitespace into words, predicts a different title. -/
theorem C9_title_counterexample :
    (((runTurn baseEnv "c1" spacedReq startSt).1).convs.map (fun c => c.title) =
       ["a  b c d e…"]) ∧
    (claimTitle "a  b c d e f g" = "a b c d e f…") ∧
    (("a  b c d e…" : String) ≠ "a b c d e f…") := by
  exact ⟨by decide, by decide, by decide⟩

/-- C9 amended: when a turn completes successfully on a conversation whose
title equals the placeholder, the saved conversation adopts as title the
first six fragments of the utterance split on single space characters
(consecutive spaces contributing empty fragments), rejoined with single
spaces and followed by the ellipsis marker; on a conversation whose title
differs from the placeholder the title is left unchanged. -/
theorem C9_title_amended (env : Env) (convId : String) (req : TurnReq) (st : St)
    (conv : Conversation) (voice : Voice) (userText : String) (tc : Bool)
    (aiText : Option String) (a : Nat)
    (hv : env.voices.find? (fun v => v.id == conv.voiceId) = some voice)
    (hu : getUserText env req = (Except.ok userText, tc))
    (hc : env.chatResult = Except.ok aiText)
    (hs : env.synthResult = Except.ok a)
    (hup : env.uploadResult = Except.ok ())
    (hsave : env.saveResult = Except.ok ()) :
    ∃ savedConv : Conversation,
      ((runPipeline env convId req st conv).1 =
         saveConvSt { st with blobs := st.blobs ++ [(convId, blobNameOf env)] } savedConv) ∧
      ((runPipeline env convId req st conv).1.convs.find?
         (fun x => x.id == savedConv.id) = some savedConv) ∧
      (savedConv.id = conv.id) ∧
      (conv.title = "New Conversation" → savedConv.title = deriveTitle userText) ∧
      (¬ conv.title = "New Conversation" → savedConv.title = conv.title) := by
  rw [runPipeline_ok env convId req st conv voice userText tc aiText a hv hu hc hs hup]
  obtain ⟨sc, h1, h2, h3⟩ :=
    persistTurn_saveOk_parts env convId req st conv voice userText _ _ _ tc hsave
  refine ⟨sc, h1, ?_, h2, ?_, ?_⟩
  · rw [h1]
    exact find?_saveConvSt _ _
  · intro h
    rw [h3, if_pos h]
  · intro h
    rw [h3, if_neg h]

/-- Witness for C9 amended: the doubled-space utterance on a placeholder
conversation yields a saved record carrying the derived title. -/
theorem C9_title_amended_witness :
    ∃ savedConv : Conversation,
      ((runPipeline baseEnv "c1" spacedReq startSt newConv).1 =
         saveConvSt { startSt with
           blobs := startSt.blobs ++ [("c1", blobNameOf baseEnv)] } savedConv) ∧
      ((runPipeline baseEnv "c1" spacedReq startSt newConv).1.convs.find?
         (fun x => x.id == savedConv.id) = some savedConv) ∧
      (savedConv.id = newConv.id) ∧
      (newConv.title = "New Conversation" → savedConv.title = deriveTitle "a  b c d e f g") ∧
      (¬ newConv.title = "New Conversation" → savedConv.title = newConv.title) :=
  C9_title_amended baseEnv "c1" spacedReq startSt newConv adaV "a  b c d e f g" false
    (some "Sure thing!") 0 (by decide) rfl rfl rfl rfl rfl

/-- C10: on every successful turn whose signal resolution outcome is a
switch (one registry match, different from the active persona), the saved
conversation's active voice id equals the matched persona id; the appended
persona-switch event records the previous active voice id and the resolved
active voice name as its source and the matched persona as its target; the
three entries are appended in the order user entry, assistant entry, switch
event; and synthesis was invoked with the matched persona voice handle. -/
theorem C10_switch_persistence (env : Env) (convId : String) (req : TurnReq) (st : St)
    (conv : Conversation) (voice : Voice) (userText : String) (tc : Bool)
    (aiText : Option String) (a : Nat) (sg : Signal) (mv : Voice)
    (hv : env.voices.find? (fun v => v.id == conv.voiceId) = some voice)
    (hu : getUserText env req = (Except.ok userText, tc))
    (hc : env.chatResult = Except.ok aiText)
    (hs : env.synthResult = Except.ok a)
    (hup : env.uploadResult = Except.ok ())
    (hsave : env.saveResult = Except.ok ())
    (hsig : extractSwitchVoiceSignal (normalizeAiText aiText) = some sg)
    (hm : voiceMatches env.voices (jsTrim sg.switchVoice) = [mv])
    (hne : ¬ mv.id = conv.voiceId) :
    ∃ savedConv um am vse,
      ((runPipeline env convId req st conv).2.1 =
         TurnOut.ok (some um) (some am) (some vse)) ∧
      ((runPipeline env convId req st conv).1.convs.find?
         (fun x => x.id == savedConv.id) = some savedConv) ∧
      (savedConv.id = conv.id) ∧
      (savedConv.voiceId = mv.id) ∧
      (savedConv.messages = conv.messages ++ [um, am, vse]) ∧
      (um.role = "user") ∧ (um.content = some userText) ∧
      (am.role = "assistant") ∧
      (vse.msgType = some "voiceSwitch") ∧ (vse.subtype = some "switch") ∧
      (vse.fromVoiceId = some conv.voiceId) ∧ (vse.fromVoiceName = some voice.name) ∧
      (vse.toVoiceId = some mv.id) ∧ (vse.toVoiceName = some mv.name) ∧
      ((runPipeline env convId req st conv).2.2.synthVoice =
         some mv.elevenLabsVoiceId) := by
  rw [runPipeline_ok env convId req st conv voice userText tc aiText a hv hu hc hs hup,
    hsig,
    resolveSignal_switch env.voices conv.voiceId voice (normalizeAiText aiText) sg mv hm
      (beq_eq_false_iff_ne.mpr hne)]
  dsimp only
  rw [persistTurn_saveOk_some env convId req st conv voice userText
    (if sg.replyText == "" then "No response" else sg.replyText) mv.elevenLabsVoiceId mv
    tc hsave]
  refine ⟨applyTitle
      { conv with
        voiceId := mv.id,
        messages := conv.messages ++
          [mkUserMessage env req userText,
           mkAiMessage env convId req
             (if sg.replyText == "" then "No response" else sg.replyText),
           mkSwitchEvent env req conv voice mv],
        updatedAt := env.now } userText,
    mkUserMessage env req userText,
    mkAiMessage env convId req (if sg.replyText == "" then "No response" else sg.replyText),
    mkSwitchEvent env req conv voice mv,
    rfl, ?_, ?_, ?_, ?_, rfl, rfl, rfl, rfl, rfl, rfl, rfl, rfl, rfl, rfl⟩
  · exact find?_saveConvSt _ _
  · rw [applyTitle_id]
  · rw [applyTitle_voiceId]
  · rw [applyTitle_messages]

/-- Witness for C10: the literal scenario of the specification — personas
Ada (active) and Didi, reply body a switch directive to Didi followed by
the greeting — persists the switch to Didi with the event from Ada to Didi
and the entries in order. -/
theorem C10_switch_persistence_witness :
    ∃ savedConv um am vse,
      ((runPipeline switchEnv "c1" textReq startSt newConv).2.1 =
         TurnOut.ok (some um) (some am) (some vse)) ∧
      ((runPipeline switchEnv "c1" textReq startSt newConv).1.convs.find?
         (fun x => x.id == savedConv.id) = some savedConv) ∧
      (savedConv.id = newConv.id) ∧
      (savedConv.voiceId = didiV.id) ∧
      (savedConv.messages = newConv.messages ++ [um, am, vse]) ∧
      (um.role = "user") ∧ (um.content = some "Please switch to Didi") ∧
      (am.role = "assistant") ∧
      (vse.msgType = some "voiceSwitch") ∧ (vse.subtype = some "switch") ∧
      (vse.fromVoiceId = some newConv.voiceId) ∧ (vse.fromVoiceName = some adaV.name) ∧
      (vse.toVoiceId = some didiV.id) ∧ (vse.toVoiceName = some didiV.name) ∧
      ((runPipeline switchEnv "c1" textReq startSt newConv).2.2.synthVoice =
         some didiV.elevenLabsVoiceId) :=
  C10_switch_persistence switchEnv "c1" textReq startSt newConv adaV
    "Please switch to Didi" false
    (some "\x7b\"switchVoice\":\"Didi\"\x7d\nHello there.") 0
    { switchVoice := "Didi", replyText := "Hello there." } didiV
    (by decide) rfl rfl rfl rfl rfl (by decide) (by decide) (by decide)
